import Mathlib

/-!
Shallow embedding of the program-enrollment REST views of
`lms/djangoapps/program_enrollments/rest_api/v1/views.py`.

The batch pipelines (`ProgramEnrollmentsView.create_or_modify_enrollments`,
`ProgramCourseEnrollmentsView.create_or_modify_enrollments`) and the grade
aggregation (`ProgramCourseGradesView`) are translated function by function.
Python dicts keyed by `student_key` become association lists with
insert-or-overwrite semantics; Python exceptions of the validation loop become
an `Except` monad; the ORM state becomes an explicit list of rows threaded
through the operations.
-/

namespace ProgramEnrollmentsSpec

/-! ## Response status constants

From the `ProgramResponseStatuses` / `ProgramCourseResponseStatuses`
constants module (the view docstrings in `views.py` list the success
statuses and the failure statuses verbatim). -/

/-- `ProgramResponseStatuses.DUPLICATED` -/
def DUPLICATED : String := "duplicated"

/-- `ProgramResponseStatuses.INVALID_STATUS` -/
def INVALID_STATUS : String := "invalid-status"

/-- `ProgramResponseStatuses.CONFLICT` -/
def CONFLICT : String := "conflict"

/-- `ProgramResponseStatuses.NOT_IN_PROGRAM` -/
def NOT_IN_PROGRAM : String := "not-in-program"

/-- `ProgramCourseResponseStatuses.NOT_FOUND` (course-level PATCH on a
learner with no course enrollment). -/
def NOT_FOUND : String := "not-found"

/-- Allowed program-enrollment statuses, per the view docstring:
`['enrolled', 'pending', 'canceled', 'suspended']`. -/
def allowedProgramStatuses : List String :=
  ["enrolled", "pending", "canceled", "suspended"]

/-- `ProgramResponseStatuses.__OK__`: the per-record results counted as
successes, per the view docstring these are exactly the four enrollment
statuses. -/
def programOK : List String := allowedProgramStatuses

/-- Allowed course-enrollment statuses (`active` / `inactive`, per the
`ProgramCourseEnrollmentsView` docstring examples). -/
def allowedCourseStatuses : List String := ["active", "inactive"]

/-- `ProgramCourseResponseStatuses.__OK__`. -/
def courseOK : List String := allowedCourseStatuses

/-- `MAX_ENROLLMENT_RECORDS` from `rest_api/v1/constants.py`; the literal 25
also appears in the course view's over-limit message (`views.py` line 606)
and throughout the spec. -/
def MAX_ENROLLMENT_RECORDS : Nat := 25

/-! ## Request body model

A request body is either not a list at all, or a list of entries; an entry
is either not a dict, or a dict from which we record the three fields the
views read (`student_key`, `status`, `curriculum_uuid`), each possibly
absent. -/

/-- One element of the posted JSON list. -/
inductive Entry where
  | notDict : Entry
  | dict (student_key : Option String) (status : Option String)
      (curriculum_uuid : Option String) : Entry
deriving DecidableEq, Repr

/-- The posted JSON body. -/
inductive RequestBody where
  | notList : RequestBody
  | list (entries : List Entry) : RequestBody
deriving DecidableEq, Repr

/-- The exceptions the validation loop catches at batch level
(`views.py` lines 368-373 / 616-621). -/
inductive BatchExc where
  | keyError : BatchExc
  | typeError : BatchExc
  | validationError : BatchExc
deriving DecidableEq, Repr

/-- A record that passed per-record validation: it is a dict, has a
`student_key`, and its `status` is in the allowed set. -/
structure ValidEntry where
  student_key : String
  status : String
  curriculum_uuid : Option String
deriving DecidableEq, Repr

/-- `enrollment['student_key']`: raises `TypeError` when the entry is not a
dict and `KeyError` when the key is missing. -/
def getStudentKey : Entry → Except BatchExc String
  | .notDict => .error .typeError
  | .dict none _ _ => .error .keyError
  | .dict (some k) _ _ => .ok k

/-! ## Association lists (Python dicts keyed by student_key) -/

/-- `d[k] = v` on a Python dict: overwrite in place if the key is present,
append otherwise (insertion order preserved). -/
def dinsert {α : Type} (k : String) (v : α) :
    List (String × α) → List (String × α)
  | [] => [(k, v)]
  | (k', v') :: rest =>
      if k' = k then (k, v) :: rest else (k', v') :: dinsert k v rest

/-- `d.get(k)` on a Python dict. -/
def dget {α : Type} (k : String) : List (String × α) → Option α
  | [] => none
  | (k', v') :: rest => if k' = k then some v' else dget k rest

/-! ## Per-record validation

`ProgramEnrollmentsView.validate_enrollment_request` (and the structurally
identical `ProgramCourseEnrollmentsView.check_enrollment_request`): read the
student key, reject duplicates, then run the request serializer.  The
serializer behaviour is modelled from the spec: a record is valid when its
`status` is in the allowed set; an out-of-set `status` makes
`has_invalid_status()` true (result `invalid-status`); a missing `status`
raises a `ValidationError` that propagates to batch level. -/

/-- Outcome of validating one entry. -/
inductive ValidateResult where
  | errorStatus (result : String) (student_key : String) : ValidateResult
  | valid (v : ValidEntry) : ValidateResult
deriving DecidableEq, Repr

/-- `validate_enrollment_request(enrollment, seen_student_keys,
serializer_class)`; the `allowed` parameter plays the role of the
serializer class.  Returns the per-record error status (if any) together
with the updated `seen_student_keys`. -/
def validate_enrollment_request (allowed : List String) (e : Entry)
    (seen : List String) : Except BatchExc (ValidateResult × List String) :=
  match getStudentKey e with
  | .error exc => .error exc
  | .ok k =>
      if k ∈ seen then .ok (.errorStatus DUPLICATED k, seen)
      else
        match e with
        | .dict _ (some s) c =>
            if s ∈ allowed then .ok (.valid ⟨k, s, c⟩, k :: seen)
            else .ok (.errorStatus INVALID_STATUS k, k :: seen)
        | .dict _ none _ => .error .validationError
        | .notDict => .error .typeError

/-- The student key a validation outcome is recorded under. -/
def ValidateResult.key : ValidateResult → String
  | .errorStatus _ k => k
  | .valid v => v.student_key

/-- The first loop of `create_or_modify_enrollments` (`views.py` lines
361-373): validate each entry in order, recording error statuses into
`results` and collecting the valid records into `enrollments`; any
uncaught exception aborts the whole batch. -/
def collectPhase (allowed : List String) :
    List Entry → List String → List (String × String) → List ValidEntry →
    Except BatchExc (List (String × String) × List ValidEntry)
  | [], _, results, enrollments => .ok (results, enrollments)
  | e :: rest, seen, results, enrollments =>
      match validate_enrollment_request allowed e seen with
      | .error exc => .error exc
      | .ok (.errorStatus s k, seen') =>
          collectPhase allowed rest seen' (dinsert k s results) enrollments
      | .ok (.valid v, seen') =>
          collectPhase allowed rest seen' results (enrollments ++ [v])

/-! ## Data model

`ProgramEnrollment` rows (spec §3): `(program_uuid, external_user_key,
user nullable, curriculum_uuid, status)`.  The ORM state is the list of
rows, appended to on create. -/

structure ProgramEnrollment where
  program_uuid : String
  external_user_key : String
  user : Option String
  curriculum_uuid : Option String
  status : String
deriving DecidableEq, Repr

/-- Result of `get_user_by_program_id(student_key, program_uuid)` from
`program_enrollments/utils.py`: either the provider for the program's
organization does not exist (`ProviderDoesNotExistException`), or the
lookup completes with a user or `None`. -/
inductive LookupResult where
  | providerDoesNotExist : LookupResult
  | found (user : Option String) : LookupResult
deriving DecidableEq, Repr

/-- An HTTP response: a payload (a plain message or a per-student result
map) plus a status code. -/
inductive RespBody where
  | message (s : String) : RespBody
  | resultsMap (m : List (String × String)) : RespBody
deriving DecidableEq, Repr

structure Response where
  data : RespBody
  status : Nat
deriving DecidableEq, Repr

/-! ## Program-enrollment operations (`views.py` lines 388-427) -/

/-- `ProgramEnrollmentsView.create_program_enrollment`: conflict when an
enrollment already exists; otherwise create a row, with `user = None`
when the identity-provider lookup raises
`ProviderDoesNotExistException`, and return the new row's status. -/
def create_program_enrollment (lookup : String → String → LookupResult)
    (request_data : ValidEntry) (program_uuid : String)
    (program_enrollment : Option ProgramEnrollment)
    (db : List ProgramEnrollment) : String × List ProgramEnrollment :=
  match program_enrollment with
  | some _ => (CONFLICT, db)
  | none =>
      let user : Option String :=
        match lookup request_data.student_key program_uuid with
        | .providerDoesNotExist => none
        | .found u => u
      let enrollment : ProgramEnrollment :=
        { program_uuid := program_uuid
          external_user_key := request_data.student_key
          user := user
          curriculum_uuid := request_data.curriculum_uuid
          status := request_data.status }
      (enrollment.status, db ++ [enrollment])

/-- `ProgramEnrollmentsView.modify_program_enrollment`: `not-in-program`
when no enrollment exists; otherwise set the row's status and return it. -/
def modify_program_enrollment (request_data : ValidEntry)
    (program_enrollment : Option ProgramEnrollment)
    (db : List ProgramEnrollment) : String × List ProgramEnrollment :=
  match program_enrollment with
  | none => (NOT_IN_PROGRAM, db)
  | some e =>
      (request_data.status,
       db.map fun r =>
         if r.program_uuid = e.program_uuid ∧
            r.external_user_key = e.external_user_key then
           { r with status := request_data.status }
         else r)

/-- `ProgramEnrollmentsView.create_or_modify_program_enrollment`. -/
def create_or_modify_program_enrollment
    (lookup : String → String → LookupResult) (request_data : ValidEntry)
    (program_uuid : String) (program_enrollment : Option ProgramEnrollment)
    (db : List ProgramEnrollment) : String × List ProgramEnrollment :=
  match program_enrollment with
  | some e => modify_program_enrollment request_data (some e) db
  | none => create_program_enrollment lookup request_data program_uuid none db

/-- The three bound methods passed as `operation` by `post` / `patch` /
`put`. -/
inductive OpKind where
  | create : OpKind
  | modify : OpKind
  | createOrModify : OpKind
deriving DecidableEq, Repr

def applyOp (lookup : String → String → LookupResult) (op : OpKind)
    (request_data : ValidEntry) (program_uuid : String)
    (program_enrollment : Option ProgramEnrollment)
    (db : List ProgramEnrollment) : String × List ProgramEnrollment :=
  match op with
  | .create =>
      create_program_enrollment lookup request_data program_uuid
        program_enrollment db
  | .modify => modify_program_enrollment request_data program_enrollment db
  | .createOrModify =>
      create_or_modify_program_enrollment lookup request_data program_uuid
        program_enrollment db

/-- `ProgramEnrollmentsView.get_existing_program_enrollments`: the dict
`{e.external_user_key: e}` over the rows of the target program whose key
occurs in the batch, built in row order (a later row with the same key
overwrites an earlier one, as in the Python dict comprehension). -/
def get_existing_program_enrollments (program_uuid : String)
    (student_data : List ValidEntry) (db : List ProgramEnrollment) :
    List (String × ProgramEnrollment) :=
  let student_keys := student_data.map (·.student_key)
  (db.filter fun e =>
      e.program_uuid = program_uuid ∧ e.external_user_key ∈ student_keys
    ).foldl (fun m e => dinsert e.external_user_key e m) []

/-- The second loop of `ProgramEnrollmentsView.create_or_modify_enrollments`
(`views.py` lines 375-384): skip records already marked `duplicated`,
look the student up in the pre-fetched snapshot, apply the operation, and
record its result. -/
def applyLoop (lookup : String → String → LookupResult) (op : OpKind)
    (program_uuid : String)
    (program_enrollments : List (String × ProgramEnrollment)) :
    List ValidEntry → List (String × String) → List ProgramEnrollment →
    List (String × String) × List ProgramEnrollment
  | [], results, db => (results, db)
  | v :: rest, results, db =>
      if dget v.student_key results = some DUPLICATED then
        applyLoop lookup op program_uuid program_enrollments rest results db
      else
        let program_enrollment := dget v.student_key program_enrollments
        let (res, db') :=
          applyOp lookup op v program_uuid program_enrollment db
        applyLoop lookup op program_uuid program_enrollments rest
          (dinsert v.student_key res results) db'

/-- `ProgramEnrollmentsView._get_created_or_updated_response`: count the
per-record results that are in `__OK__`; none good → 422, some but not
all good → 207, otherwise the operation's `default_status`. -/
def _get_created_or_updated_response (response_data : List (String × String))
    (default_status : Nat) : Response :=
  let good_count := (response_data.filter fun kv => kv.2 ∈ programOK).length
  let response_status :=
    if good_count = 0 then 422
    else if good_count ≠ response_data.length then 207
    else default_status
  { data := .resultsMap response_data, status := response_status }

/-- `ProgramEnrollmentsView.create_or_modify_enrollments` (`views.py`
lines 344-386): reject a non-list body (422) and over-long batches (413),
validate every record, fetch the existing enrollments once, apply the
operation per record, and derive the aggregate response.  Returns the
response together with the resulting ORM state. -/
def ProgramEnrollmentsView_create_or_modify_enrollments
    (lookup : String → String → LookupResult) (op : OpKind)
    (success_status : Nat) (program_uuid : String) (body : RequestBody)
    (db : List ProgramEnrollment) : Response × List ProgramEnrollment :=
  match body with
  | .notList => ({ data := .message "invalid enrollment record", status := 422 }, db)
  | .list entries =>
      if entries.length > MAX_ENROLLMENT_RECORDS then
        ({ data := .message "enrollment limit 25", status := 413 }, db)
      else
        match collectPhase allowedProgramStatuses entries [] [] [] with
        | .error _ =>
            ({ data := .message "invalid enrollment record", status := 422 }, db)
        | .ok (results, enrollments) =>
            let program_enrollments :=
              get_existing_program_enrollments program_uuid enrollments db
            let (results', db') :=
              applyLoop lookup op program_uuid program_enrollments
                enrollments results db
            (_get_created_or_updated_response results' success_status, db')

/-- `ProgramEnrollmentsView.post`: create with success status 201. -/
def ProgramEnrollmentsView_post (lookup : String → String → LookupResult)
    (program_uuid : String) (body : RequestBody)
    (db : List ProgramEnrollment) : Response × List ProgramEnrollment :=
  ProgramEnrollmentsView_create_or_modify_enrollments lookup .create 201
    program_uuid body db

/-- `ProgramEnrollmentsView.patch`: modify with success status 200. -/
def ProgramEnrollmentsView_patch (lookup : String → String → LookupResult)
    (program_uuid : String) (body : RequestBody)
    (db : List ProgramEnrollment) : Response × List ProgramEnrollment :=
  ProgramEnrollmentsView_create_or_modify_enrollments lookup .modify 200
    program_uuid body db

/-- `ProgramEnrollmentsView.put`: create-or-modify with success status 200. -/
def ProgramEnrollmentsView_put (lookup : String → String → LookupResult)
    (program_uuid : String) (body : RequestBody)
    (db : List ProgramEnrollment) : Response × List ProgramEnrollment :=
  ProgramEnrollmentsView_create_or_modify_enrollments lookup .createOrModify
    200 program_uuid body db

/-! ## Course-level enrollments (`ProgramCourseEnrollmentsView`) -/

/-- `ProgramCourseEnrollment` rows (spec §3): a child of a
`ProgramEnrollment` (identified here by `(program_uuid,
external_user_key)`), plus `course_key`, `status`, and the nullable
realized `course_enrollment` link. -/
structure ProgramCourseEnrollment where
  program_uuid : String
  external_user_key : String
  course_key : String
  status : String
  course_enrollment : Option String
deriving DecidableEq, Repr

/-- Modelled from the spec:
`ProgramCourseEnrollment.create_program_course_enrollment` lives in
`program_enrollments/models.py`, which is not among the sources.  Per spec
§3/§4.1 it creates the child row under the given parent enrollment and
realizes the underlying course registration immediately when the parent
already has a linked user; it returns the resulting status string. -/
def create_program_course_enrollment (program_enrollment : ProgramEnrollment)
    (course_key : String) (st : String)
    (cdb : List ProgramCourseEnrollment) :
    String × List ProgramCourseEnrollment :=
  let row : ProgramCourseEnrollment :=
    { program_uuid := program_enrollment.program_uuid
      external_user_key := program_enrollment.external_user_key
      course_key := course_key
      status := st
      course_enrollment := program_enrollment.user }
  (st, cdb ++ [row])

/-- Modelled from the spec: `ProgramCourseEnrollment.change_status` (in
`models.py`, not among the sources) updates the row's status and returns
it. -/
def change_status (pce : ProgramCourseEnrollment) (st : String)
    (cdb : List ProgramCourseEnrollment) :
    String × List ProgramCourseEnrollment :=
  (st,
   cdb.map fun r =>
     if r.program_uuid = pce.program_uuid ∧
        r.external_user_key = pce.external_user_key ∧
        r.course_key = pce.course_key then
       { r with status := st }
     else r)

/-- Modelled from the spec:
`ProgramEnrollment.get_program_course_enrollment(course_key)` (in
`models.py`, not among the sources) returns the child course enrollment of
this enrollment for the given course run, or `None`. -/
def get_program_course_enrollment (program_enrollment : ProgramEnrollment)
    (course_key : String) (cdb : List ProgramCourseEnrollment) :
    Option ProgramCourseEnrollment :=
  cdb.find? fun r =>
    r.program_uuid = program_enrollment.program_uuid ∧
    r.external_user_key = program_enrollment.external_user_key ∧
    r.course_key = course_key

/-- The three bound methods passed as `operation` by the course view's
`post` / `patch` / `put`. -/
inductive CourseOpKind where
  | enroll : CourseOpKind
  | modifyStatus : CourseOpKind
  | createOrUpdate : CourseOpKind
deriving DecidableEq, Repr

/-- `ProgramCourseEnrollmentsView.enroll_learner_in_course` (`views.py`
lines 679-693): conflict when a course enrollment already exists,
otherwise create one under the parent program enrollment. -/
def enroll_learner_in_course (enrollment_request : ValidEntry)
    (program_enrollment : ProgramEnrollment) (course_key : String)
    (program_course_enrollment : Option ProgramCourseEnrollment)
    (cdb : List ProgramCourseEnrollment) :
    String × List ProgramCourseEnrollment :=
  match program_course_enrollment with
  | some _ => (CONFLICT, cdb)
  | none =>
      create_program_course_enrollment program_enrollment course_key
        enrollment_request.status cdb

/-- `ProgramCourseEnrollmentsView.modify_learner_enrollment_status`
(`views.py` lines 696-703). -/
def modify_learner_enrollment_status (enrollment_request : ValidEntry)
    (program_course_enrollment : Option ProgramCourseEnrollment)
    (cdb : List ProgramCourseEnrollment) :
    String × List ProgramCourseEnrollment :=
  match program_course_enrollment with
  | none => (NOT_FOUND, cdb)
  | some pce => change_status pce enrollment_request.status cdb

/-- `ProgramCourseEnrollmentsView.create_or_update_learner_enrollment`
(`views.py` lines 705-719). -/
def create_or_update_learner_enrollment (enrollment_request : ValidEntry)
    (program_enrollment : ProgramEnrollment) (course_key : String)
    (program_course_enrollment : Option ProgramCourseEnrollment)
    (cdb : List ProgramCourseEnrollment) :
    String × List ProgramCourseEnrollment :=
  match program_course_enrollment with
  | none =>
      create_program_course_enrollment program_enrollment course_key
        enrollment_request.status cdb
  | some pce => change_status pce enrollment_request.status cdb

def applyCourseOp (op : CourseOpKind) (enrollment_request : ValidEntry)
    (program_enrollment : ProgramEnrollment) (course_key : String)
    (program_course_enrollment : Option ProgramCourseEnrollment)
    (cdb : List ProgramCourseEnrollment) :
    String × List ProgramCourseEnrollment :=
  match op with
  | .enroll =>
      enroll_learner_in_course enrollment_request program_enrollment
        course_key program_course_enrollment cdb
  | .modifyStatus =>
      modify_learner_enrollment_status enrollment_request
        program_course_enrollment cdb
  | .createOrUpdate =>
      create_or_update_learner_enrollment enrollment_request
        program_enrollment course_key program_course_enrollment cdb

/-- The body of the course view's second loop for one record (`views.py`
lines 628-634): a student with no program enrollment is `not-in-program`
and no operation runs; otherwise the operation is applied to the child
course enrollment for this course run. -/
def process_course_record (op : CourseOpKind) (course_key : String)
    (program_enrollments : List (String × ProgramEnrollment))
    (v : ValidEntry) (cdb : List ProgramCourseEnrollment) :
    String × List ProgramCourseEnrollment :=
  match dget v.student_key program_enrollments with
  | none => (NOT_IN_PROGRAM, cdb)
  | some program_enrollment =>
      let program_course_enrollment :=
        get_program_course_enrollment program_enrollment course_key cdb
      applyCourseOp op v program_enrollment course_key
        program_course_enrollment cdb

/-- The second loop of
`ProgramCourseEnrollmentsView.create_or_modify_enrollments` (`views.py`
lines 624-634). -/
def courseApplyLoop (op : CourseOpKind) (course_key : String)
    (program_enrollments : List (String × ProgramEnrollment)) :
    List ValidEntry → List (String × String) →
    List ProgramCourseEnrollment →
    List (String × String) × List ProgramCourseEnrollment
  | [], results, cdb => (results, cdb)
  | v :: rest, results, cdb =>
      if dget v.student_key results = some DUPLICATED then
        courseApplyLoop op course_key program_enrollments rest results cdb
      else
        let (res, cdb') :=
          process_course_record op course_key program_enrollments v cdb
        courseApplyLoop op course_key program_enrollments rest
          (dinsert v.student_key res results) cdb'

/-- The aggregate response of the course view (`views.py` lines 636-645):
no good results → 422, some but not all good → 207, otherwise plain 200. -/
def courseAggregateResponse (results : List (String × String)) : Response :=
  let good_count := (results.filter fun kv => kv.2 ∈ courseOK).length
  if good_count = 0 then { data := .resultsMap results, status := 422 }
  else if good_count ≠ results.length then
    { data := .resultsMap results, status := 207 }
  else { data := .resultsMap results, status := 200 }

/-- `ProgramCourseEnrollmentsView.get_existing_program_enrollments`
(`views.py` lines 664-677): same dict as the program view's, over the
batch's student keys. -/
def course_get_existing_program_enrollments (program_uuid : String)
    (enrollments : List ValidEntry) (db : List ProgramEnrollment) :
    List (String × ProgramEnrollment) :=
  get_existing_program_enrollments program_uuid enrollments db

/-- `ProgramCourseEnrollmentsView.create_or_modify_enrollments`
(`views.py` lines 593-645): non-list body → 400, more than 25 records →
413, a validation exception → 400; otherwise apply the operation per
record and aggregate.  The program-enrollment table is read but never
written by this view, so only the course-enrollment state is returned. -/
def ProgramCourseEnrollmentsView_create_or_modify_enrollments
    (op : CourseOpKind) (program_uuid : String) (course_key : String)
    (body : RequestBody) (pdb : List ProgramEnrollment)
    (cdb : List ProgramCourseEnrollment) :
    Response × List ProgramCourseEnrollment :=
  match body with
  | .notList =>
      ({ data := .message "invalid enrollment record", status := 400 }, cdb)
  | .list entries =>
      if entries.length > MAX_ENROLLMENT_RECORDS then
        ({ data := .message "enrollment limit 25", status := 413 }, cdb)
      else
        match collectPhase allowedCourseStatuses entries [] [] [] with
        | .error _ =>
            ({ data := .message "invalid enrollment record", status := 400 },
             cdb)
        | .ok (results, enrollments) =>
            let program_enrollments :=
              course_get_existing_program_enrollments program_uuid
                enrollments pdb
            let (results', cdb') :=
              courseApplyLoop op course_key program_enrollments enrollments
                results cdb
            (courseAggregateResponse results', cdb')

/-! ## Grade aggregation (`ProgramCourseGradesView`) -/

/-- `BaseProgramCourseGrade` from the serializers: either
`ProgramCourseGradeOk(enrollment, grade)` or
`ProgramCourseGradeError(enrollment, exception)`.  `E` is the enrollment
row type, `G` the course-grade payload. -/
inductive ProgramCourseGrade (E G : Type) where
  | ok (enrollment : E) (grade : G) : ProgramCourseGrade E G
  | error (enrollment : E) (exc : Option String) : ProgramCourseGrade E G
deriving DecidableEq, Repr

/-- The `is_error` flag of the two result classes. -/
def ProgramCourseGrade.is_error {E G : Type} :
    ProgramCourseGrade E G → Bool
  | .ok _ _ => false
  | .error _ _ => true

/-- `ProgramCourseGradesView._iter_grades` (`views.py` lines 848-877),
with `CourseGradeFactory().iter` modelled from the spec: the factory is
not among the sources; per the `_iter_grades` docstring it yields one
`(grade-or-None, exception-or-None)` pair per user, in the same order as
`users`, an exception for one user never aborting the others.  `gradeOf`
is that per-user outcome. -/
def _iter_grades {U G : Type} (gradeOf : U → Option G × Option String)
    (users : List U) : List (Option G × Option String) :=
  users.map gradeOf

/-- `ProgramCourseGradesView._load_grade_results` (`views.py` lines
808-846): empty page → `[]`; otherwise zip the enrollments with their
grade outcomes and wrap each pair as an ok or error record. -/
def _load_grade_results {E U G : Type} (userOf : E → U)
    (gradeOf : U → Option G × Option String)
    (paginated_enrollments : List E) : List (ProgramCourseGrade E G) :=
  if paginated_enrollments.isEmpty then []
  else
    let users := paginated_enrollments.map userOf
    let enrollment_grade_pairs :=
      paginated_enrollments.zip (_iter_grades gradeOf users)
    enrollment_grade_pairs.map fun p =>
      match p.2.1 with
      | some grade => .ok p.1 grade
      | none => .error p.1 p.2.2

/-- `ProgramCourseGradesView._calc_response_code` (`views.py` lines
879-900). -/
def _calc_response_code {E G : Type}
    (grade_results : List (ProgramCourseGrade E G)) : Nat :=
  if grade_results.isEmpty then 204
  else if grade_results.all (·.is_error) then 422
  else if grade_results.any (·.is_error) then 207
  else 200

/-! ## Derived notions used by the theorems -/

/-- Number of entries of a batch carrying the student key `k`. -/
def countKey (k : String) (entries : List Entry) : Nat :=
  (entries.filter fun e =>
    match getStudentKey e with
    | .ok k' => k' == k
    | .error _ => false).length

/-- The invariant of spec §3: every `ProgramCourseEnrollment` has a parent
`ProgramEnrollment`. -/
def courseInvariant (pdb : List ProgramEnrollment)
    (cdb : List ProgramCourseEnrollment) : Prop :=
  ∀ c ∈ cdb, ∃ e ∈ pdb,
    e.program_uuid = c.program_uuid ∧
    e.external_user_key = c.external_user_key

/-- The rows of the program-enrollment table carrying a given student
key. -/
def rowsFor (k : String) (db : List ProgramEnrollment) :
    List ProgramEnrollment :=
  db.filter fun r => r.external_user_key = k

/-- The rows of the course-enrollment table carrying a given student
key. -/
def courseRowsFor (k : String) (cdb : List ProgramCourseEnrollment) :
    List ProgramCourseEnrollment :=
  cdb.filter fun r => r.external_user_key = k

/-- Batch-level malformedness of one entry: not a dict, or a dict without
a `student_key` field. -/
def malformedEntry (e : Entry) : Prop :=
  e = .notDict ∨ ∃ s c, e = .dict none s c

/-- A provider lookup that finds no linked user. -/
def lookupNone : String → String → LookupResult := fun _ _ => .found none

/-- A provider lookup that raises `ProviderDoesNotExistException`. -/
def lookupProviderMissing : String → String → LookupResult :=
  fun _ _ => .providerDoesNotExist

/-! ## Lemmas: association lists -/

theorem dget_dinsert {α : Type} (k k' : String) (v : α)
    (m : List (String × α)) :
    dget k (dinsert k' v m) = if k' = k then some v else dget k m := by
  induction m with
  | nil => simp [dinsert, dget]
  | cons hd tl ih =>
      obtain ⟨hk, hv⟩ := hd
      by_cases h1 : hk = k'
      · subst h1
        by_cases h2 : hk = k
        · subst h2
          simp [dinsert, dget]
        · simp [dinsert, dget, h2]
      · by_cases h2 : hk = k
        · subst h2
          have h3 : ¬ k' = hk := fun h => h1 h.symm
          simp [dinsert, dget, h1, h3, ih]
        · simp [dinsert, dget, h1, h2, ih]

theorem dget_dinsert_self {α : Type} (k : String) (v : α)
    (m : List (String × α)) : dget k (dinsert k v m) = some v := by
  simp [dget_dinsert]

theorem dget_dinsert_ne {α : Type} (k k' : String) (v : α)
    (m : List (String × α)) (h : k' ≠ k) :
    dget k (dinsert k' v m) = dget k m := by
  simp [dget_dinsert, h]

theorem dget_isSome_iff_mem_keys {α : Type} (k : String)
    (m : List (String × α)) :
    (dget k m).isSome ↔ k ∈ m.map Prod.fst := by
  induction m with
  | nil => simp [dget]
  | cons hd tl ih =>
      by_cases h : hd.1 = k
      · simp [dget, h]
      · have h' : ¬ k = hd.1 := fun hk => h hk.symm
        simp [dget, h, h', ih]

theorem dinsert_keys_nodup {α : Type} (k : String) (v : α)
    (m : List (String × α)) (h : (m.map Prod.fst).Nodup) :
    ((dinsert k v m).map Prod.fst).Nodup := by
  induction m with
  | nil => simp [dinsert]
  | cons hd tl ih =>
      obtain ⟨hk, hv⟩ := hd
      simp only [List.map_cons, List.nodup_cons] at h
      by_cases h1 : hk = k
      · subst h1
        simpa [dinsert] using h
      · have htl := ih h.2
        have hknotin : hk ∉ (dinsert k v tl).map Prod.fst := by
          intro hmem
          have hsome : (dget hk (dinsert k v tl)).isSome := by
            rw [dget_isSome_iff_mem_keys]; exact hmem
          rw [dget_dinsert_ne hk k v tl (fun hh => h1 hh.symm)] at hsome
          rw [dget_isSome_iff_mem_keys] at hsome
          exact h.1 hsome
        simp only [dinsert, if_neg h1, List.map_cons, List.nodup_cons]
        exact ⟨hknotin, htl⟩

/-! ## Lemmas: per-record validation -/

theorem validate_notDict (allowed : List String) (seen : List String) :
    validate_enrollment_request allowed .notDict seen = .error .typeError :=
  rfl

theorem validate_noKey (allowed : List String) (s c : Option String)
    (seen : List String) :
    validate_enrollment_request allowed (.dict none s c) seen =
      .error .keyError :=
  rfl

theorem validate_dict_some (allowed : List String) (k : String)
    (s c : Option String) (seen : List String) :
    validate_enrollment_request allowed (.dict (some k) s c) seen =
      if k ∈ seen then .ok (.errorStatus DUPLICATED k, seen)
      else
        match s with
        | some st =>
            if st ∈ allowed then .ok (.valid ⟨k, st, c⟩, k :: seen)
            else .ok (.errorStatus INVALID_STATUS k, k :: seen)
        | none => .error .validationError := by
  by_cases h : k ∈ seen
  · simp [validate_enrollment_request, getStudentKey, h]
  · cases s <;> simp [validate_enrollment_request, getStudentKey, h]

/-- On success, validation reports the very key read from the entry, and
only ever grows `seen_student_keys`. -/
theorem validate_ok_spec (allowed : List String) (e : Entry)
    (seen seen' : List String) (r : ValidateResult)
    (h : validate_enrollment_request allowed e seen = .ok (r, seen')) :
    getStudentKey e = .ok r.key ∧ seen ⊆ seen' ∧ r.key ∈ seen' := by
  match e with
  | .notDict => simp [validate_notDict] at h
  | .dict none s c => simp [validate_noKey] at h
  | .dict (some k) s c =>
      rw [validate_dict_some] at h
      by_cases hk : k ∈ seen
      · rw [if_pos hk] at h
        obtain ⟨h1, h2⟩ : ValidateResult.errorStatus DUPLICATED k = r
            ∧ seen = seen' := by simpa using h
        subst h1; subst h2
        exact ⟨rfl, fun a ha => ha, hk⟩
      · rw [if_neg hk] at h
        match s with
        | some st =>
            simp only [] at h
            by_cases hs : st ∈ allowed
            · rw [if_pos hs] at h
              obtain ⟨h1, h2⟩ : ValidateResult.valid ⟨k, st, c⟩ = r
                  ∧ k :: seen = seen' := by simpa using h
              subst h1; subst h2
              exact ⟨rfl, fun a ha => List.mem_cons_of_mem _ ha,
                List.mem_cons_self _ _⟩
            · rw [if_neg hs] at h
              obtain ⟨h1, h2⟩ : ValidateResult.errorStatus INVALID_STATUS k = r
                  ∧ k :: seen = seen' := by simpa using h
              subst h1; subst h2
              exact ⟨rfl, fun a ha => List.mem_cons_of_mem _ ha,
                List.mem_cons_self _ _⟩
        | none => simp at h

/-- A key already seen validates to `duplicated`, leaving `seen` alone. -/
theorem validate_dup (allowed : List String) (e : Entry) (k : String)
    (seen : List String) (hkey : getStudentKey e = .ok k) (hk : k ∈ seen) :
    validate_enrollment_request allowed e seen =
      .ok (.errorStatus DUPLICATED k, seen) := by
  match e with
  | .notDict => simp [getStudentKey] at hkey
  | .dict none s c => simp [getStudentKey] at hkey
  | .dict (some k') s c =>
      simp [getStudentKey] at hkey
      subst hkey
      rw [validate_dict_some, if_pos hk]

/-! ## Lemmas: the pre-fetched enrollment snapshot -/

/-- Unfolding of the dict-comprehension fold: a hit comes from the list or
from the initial dict. -/
theorem foldl_dinsert_mem (l : List ProgramEnrollment)
    (m0 : List (String × ProgramEnrollment)) (k : String)
    (e : ProgramEnrollment)
    (h : dget k (l.foldl (fun m e => dinsert e.external_user_key e m) m0)
          = some e) :
    (e ∈ l ∧ e.external_user_key = k) ∨ dget k m0 = some e := by
  induction l generalizing m0 with
  | nil => exact Or.inr h
  | cons hd tl ih =>
      simp only [List.foldl_cons] at h
      rcases ih _ h with h1 | h2
      · exact Or.inl ⟨List.mem_cons_of_mem _ h1.1, h1.2⟩
      · rw [dget_dinsert] at h2
        by_cases hk : hd.external_user_key = k
        · rw [if_pos hk] at h2
          obtain rfl := Option.some_injective _ h2
          exact Or.inl ⟨List.mem_cons_self _ _, hk⟩
        · rw [if_neg hk] at h2
          exact Or.inr h2

theorem foldl_dinsert_isSome (l : List ProgramEnrollment)
    (m0 : List (String × ProgramEnrollment)) (k : String)
    (h : (∃ e ∈ l, e.external_user_key = k) ∨ (dget k m0).isSome) :
    (dget k (l.foldl (fun m e => dinsert e.external_user_key e m) m0)).isSome
    := by
  induction l generalizing m0 with
  | nil =>
      rcases h with ⟨e, he, _⟩ | h2
      · exact absurd he (List.not_mem_nil e)
      · exact h2
  | cons hd tl ih =>
      simp only [List.foldl_cons]
      rcases h with ⟨e, he, hek⟩ | h2
      · rcases List.mem_cons.mp he with rfl | htl
        · exact ih _ (Or.inr (by rw [hek, dget_dinsert_self]; rfl))
        · exact ih _ (Or.inl ⟨e, htl, hek⟩)
      · refine ih _ (Or.inr ?_)
        rw [dget_dinsert]
        by_cases hk : hd.external_user_key = k
        · rw [if_pos hk]; rfl
        · rw [if_neg hk]; exact h2

/-- What a hit in `get_existing_program_enrollments` guarantees: the row is
in the table, belongs to the target program, and carries the looked-up
student key. -/
theorem snapshot_mem (program_uuid : String) (pending : List ValidEntry)
    (db : List ProgramEnrollment) (k : String) (e : ProgramEnrollment)
    (h : dget k (get_existing_program_enrollments program_uuid pending db)
          = some e) :
    e ∈ db ∧ e.program_uuid = program_uuid ∧ e.external_user_key = k := by
  unfold get_existing_program_enrollments at h
  rcases foldl_dinsert_mem _ _ _ _ h with h1 | h2
  · have hmem := List.mem_filter.mp h1.1
    have hp := of_decide_eq_true hmem.2
    exact ⟨hmem.1, hp.1, h1.2⟩
  · simp [dget] at h2

/-- A student key that occurs in the batch and has a row in the target
program is present in the snapshot. -/
theorem snapshot_isSome (program_uuid : String) (pending : List ValidEntry)
    (db : List ProgramEnrollment) (k : String)
    (hk : k ∈ pending.map (·.student_key))
    (he : ∃ e ∈ db, e.program_uuid = program_uuid ∧
            e.external_user_key = k) :
    (dget k (get_existing_program_enrollments program_uuid pending db)).isSome
    := by
  unfold get_existing_program_enrollments
  obtain ⟨e, hedb, hep, hek⟩ := he
  refine foldl_dinsert_isSome _ _ _ (Or.inl ⟨e, ?_, hek⟩)
  refine List.mem_filter.mpr ⟨hedb, decide_eq_true ?_⟩
  exact ⟨hep, by rw [hek]; exact hk⟩

/-! ## Lemmas: counting occurrences of a key -/

theorem countKey_nil (k : String) : countKey k [] = 0 := rfl

theorem countKey_cons_pos (k : String) (e : Entry) (rest : List Entry)
    (h : getStudentKey e = .ok k) :
    countKey k (e :: rest) = countKey k rest + 1 := by
  simp [countKey, List.filter_cons, h]

theorem countKey_cons_neg (k : String) (e : Entry) (rest : List Entry)
    (h : getStudentKey e ≠ .ok k) :
    countKey k (e :: rest) = countKey k rest := by
  have hp : (match getStudentKey e with
             | .ok k' => k' == k
             | .error _ => false) = false := by
    cases hek : getStudentKey e with
    | error exc => rfl
    | ok k' =>
        have hne : k' ≠ k := fun hkk => h (by rw [hek, hkk])
        simp [hne]
  simp [countKey, List.filter_cons, hp]

/-! ## Lemmas: the validation loop and duplicated keys -/

/-- Once a key has been seen and its result slot says `duplicated`, the
rest of the validation loop never changes that slot. -/
theorem collect_dup_frozen (allowed : List String) (entries : List Entry) :
    ∀ (seen : List String) (results : List (String × String))
      (pending : List ValidEntry) (res : List (String × String))
      (pend : List ValidEntry) (k : String),
      collectPhase allowed entries seen results pending = .ok (res, pend) →
      k ∈ seen → dget k results = some DUPLICATED →
      dget k res = some DUPLICATED := by
  induction entries with
  | nil =>
      intro seen results pending res pend k h hk hd
      obtain ⟨h1, h2⟩ : results = res ∧ pending = pend := by
        simpa [collectPhase] using h
      rw [← h1]; exact hd
  | cons e rest ih =>
      intro seen results pending res pend k h hk hd
      cases hv : validate_enrollment_request allowed e seen with
      | error exc => simp [collectPhase, hv] at h
      | ok p =>
          obtain ⟨r, seen'⟩ := p
          obtain ⟨hkey, hsub, hkmem⟩ :=
            validate_ok_spec allowed e seen seen' r hv
          cases r with
          | errorStatus s k0 =>
              simp only [collectPhase, hv] at h
              simp only [ValidateResult.key] at hkey
              by_cases hkk : k0 = k
              · subst hkk
                have hdup := validate_dup allowed e k0 seen hkey hk
                rw [hv] at hdup
                obtain ⟨hs, hseen⟩ : s = DUPLICATED ∧ seen' = seen := by
                  simpa using hdup
                subst hs
                rw [hseen] at h
                exact ih seen (dinsert k0 DUPLICATED results) pending res
                  pend k0 h hk (dget_dinsert_self k0 DUPLICATED results)
              · refine ih seen' (dinsert k0 s results) pending res pend k
                  h (hsub hk) ?_
                rw [dget_dinsert_ne k k0 s results hkk]
                exact hd
          | valid v =>
              simp only [collectPhase, hv] at h
              exact ih seen' results (pending ++ [v]) res pend k h
                (hsub hk) hd

/-- A key that has already been seen and occurs in the remaining entries
ends with result `duplicated`. -/
theorem collect_seen_dup (allowed : List String) (entries : List Entry) :
    ∀ (seen : List String) (results : List (String × String))
      (pending : List ValidEntry) (res : List (String × String))
      (pend : List ValidEntry) (k : String),
      collectPhase allowed entries seen results pending = .ok (res, pend) →
      k ∈ seen → 1 ≤ countKey k entries →
      dget k res = some DUPLICATED := by
  induction entries with
  | nil =>
      intro seen results pending res pend k h hk hc
      rw [countKey_nil] at hc
      omega
  | cons e rest ih =>
      intro seen results pending res pend k h hk hc
      by_cases hek : getStudentKey e = .ok k
      · have hv := validate_dup allowed e k seen hek hk
        simp only [collectPhase, hv] at h
        exact collect_dup_frozen allowed rest seen
          (dinsert k DUPLICATED results) pending res pend k h hk
          (dget_dinsert_self k DUPLICATED results)
      · have hc' : 1 ≤ countKey k rest := by
          rw [countKey_cons_neg k e rest hek] at hc
          exact hc
        cases hv : validate_enrollment_request allowed e seen with
        | error exc => simp [collectPhase, hv] at h
        | ok p =>
            obtain ⟨r, seen'⟩ := p
            obtain ⟨hkey, hsub, hkmem⟩ :=
              validate_ok_spec allowed e seen seen' r hv
            cases r with
            | errorStatus s k0 =>
                simp only [collectPhase, hv] at h
                exact ih seen' (dinsert k0 s results) pending res pend k h
                  (hsub hk) hc'
            | valid v =>
                simp only [collectPhase, hv] at h
                exact ih seen' results (pending ++ [v]) res pend k h
                  (hsub hk) hc'

/-- Main duplicated-key lemma: when a student key occurs at least twice in
the batch and the validation loop finishes without an exception, that
key's final per-record result is `duplicated`. -/
theorem collect_dup_main (allowed : List String) (entries : List Entry)
    (res : List (String × String)) (pend : List ValidEntry) (k : String)
    (h : collectPhase allowed entries [] [] [] = .ok (res, pend))
    (hc : 2 ≤ countKey k entries) :
    dget k res = some DUPLICATED := by
  suffices hgen : ∀ (entries : List Entry) (seen : List String)
      (results : List (String × String)) (pending : List ValidEntry)
      (res : List (String × String)) (pend : List ValidEntry),
      collectPhase allowed entries seen results pending = .ok (res, pend) →
      2 ≤ countKey k entries → dget k res = some DUPLICATED by
    exact hgen entries [] [] [] res pend h hc
  intro entries
  induction entries with
  | nil =>
      intro seen results pending res pend h hc
      rw [countKey_nil] at hc
      omega
  | cons e rest ih =>
      intro seen results pending res pend h hc
      by_cases hek : getStudentKey e = .ok k
      · cases hv : validate_enrollment_request allowed e seen with
        | error exc => simp [collectPhase, hv] at h
        | ok p =>
            obtain ⟨r, seen'⟩ := p
            obtain ⟨hkey, hsub, hkmem⟩ :=
              validate_ok_spec allowed e seen seen' r hv
            have hkeyk : r.key = k := by
              rw [hek] at hkey
              exact (Except.ok.injEq _ _ ▸ hkey.symm : _) ▸ rfl
            have hkseen' : k ∈ seen' := hkeyk ▸ hkmem
            have hc' : 1 ≤ countKey k rest := by
              have hcc := countKey_cons_pos k e rest hek
              omega
            cases r with
            | errorStatus s k0 =>
                simp only [collectPhase, hv] at h
                exact collect_seen_dup allowed rest seen'
                  (dinsert k0 s results) pending res pend k h hkseen' hc'
            | valid v =>
                simp only [collectPhase, hv] at h
                exact collect_seen_dup allowed rest seen' results
                  (pending ++ [v]) res pend k h hkseen' hc'
      · have hc' : 2 ≤ countKey k rest := by
          rw [countKey_cons_neg k e rest hek] at hc
          exact hc
        cases hv : validate_enrollment_request allowed e seen with
        | error exc => simp [collectPhase, hv] at h
        | ok p =>
            obtain ⟨r, seen'⟩ := p
            cases r with
            | errorStatus s k0 =>
                simp only [collectPhase, hv] at h
                exact ih seen' (dinsert k0 s results) pending res pend h hc'
            | valid v =>
                simp only [collectPhase, hv] at h
                exact ih seen' results (pending ++ [v]) res pend h hc'

theorem dget_dinsert_isSome {α : Type} (k k' : String) (v : α)
    (m : List (String × α)) :
    (dget k (dinsert k' v m)).isSome ↔ k' = k ∨ (dget k m).isSome := by
  rw [dget_dinsert]
  by_cases h : k' = k <;> simp [h]

/-- Mapping a function that fixes every element selected by the filter
leaves the filtered list unchanged, as long as selection is invariant
under the function. -/
theorem filter_map_of_fixed {α : Type} (p : α → Bool) (f : α → α)
    (l : List α) (hf : ∀ r, p (f r) = p r)
    (hfix : ∀ r, p r = true → f r = r) :
    (l.map f).filter p = l.filter p := by
  induction l with
  | nil => rfl
  | cons hd tl ih =>
      by_cases hp : p hd = true
      · rw [List.map_cons, List.filter_cons, List.filter_cons, hf hd, hp,
          hfix hd hp]
        simp [ih]
      · have hp' : p hd = false := by
          cases hb : p hd
          · rfl
          · exact absurd hb hp
        rw [List.map_cons, List.filter_cons, List.filter_cons, hf hd, hp']
        simpa using ih

/-! ## Lemmas: the apply loop of the program-enrollment view -/

/-- An operation applied to a record with a different student key never
touches the rows of key `k`. -/
theorem applyOp_rowsFor_other (lookup : String → String → LookupResult)
    (op : OpKind) (v : ValidEntry) (pu : String)
    (pe : Option ProgramEnrollment) (db : List ProgramEnrollment)
    (k : String) (hne : v.student_key ≠ k)
    (hpe : ∀ e, pe = some e → e.external_user_key = v.student_key) :
    rowsFor k (applyOp lookup op v pu pe db).2 = rowsFor k db := by
  have hcreate : ∀ db' : List ProgramEnrollment,
      rowsFor k (create_program_enrollment lookup v pu pe db').2 =
        rowsFor k db' := by
    intro db'
    match pe with
    | some e => rfl
    | none =>
        simp only [create_program_enrollment, rowsFor, List.filter_append]
        have : (List.filter
            (fun r : ProgramEnrollment => decide (r.external_user_key = k))
            [{ program_uuid := pu, external_user_key := v.student_key,
               user := match lookup v.student_key pu with
                 | .providerDoesNotExist => none
                 | .found u => u,
               curriculum_uuid := v.curriculum_uuid,
               status := v.status }]) = [] := by
          simp [List.filter_cons, hne]
        rw [this, List.append_nil]
  have hmodify : ∀ db' : List ProgramEnrollment,
      rowsFor k (modify_program_enrollment v pe db').2 = rowsFor k db' := by
    intro db'
    match pe with
    | none => rfl
    | some e =>
        have hek := hpe e rfl
        simp only [modify_program_enrollment, rowsFor]
        refine filter_map_of_fixed _ _ _ (fun r => by
          by_cases hc : r.program_uuid = e.program_uuid ∧
              r.external_user_key = e.external_user_key
          · simp [hc]
          · simp [hc]) (fun r hr => ?_)
        have hrk : r.external_user_key = k := of_decide_eq_true hr
        have hc : ¬ (r.program_uuid = e.program_uuid ∧
            r.external_user_key = e.external_user_key) := by
          rintro ⟨_, hc2⟩
          exact hne (by rw [← hek, ← hc2, hrk])
        simp [hc]
  match op with
  | .create => exact hcreate db
  | .modify => exact hmodify db
  | .createOrModify =>
      match pe with
      | some e => exact hmodify db
      | none => exact hcreate db

/-- Once a key's result slot says `duplicated`, the apply loop neither
rewrites that slot nor touches that key's rows. -/
theorem applyLoop_dup_frozen (lookup : String → String → LookupResult)
    (op : OpKind) (pu : String)
    (snap : List (String × ProgramEnrollment))
    (hsnap : ∀ k' e, dget k' snap = some e → e.external_user_key = k')
    (pend : List ValidEntry) :
    ∀ (results : List (String × String)) (db : List ProgramEnrollment)
      (k : String), dget k results = some DUPLICATED →
      dget k (applyLoop lookup op pu snap pend results db).1 =
        some DUPLICATED ∧
      rowsFor k (applyLoop lookup op pu snap pend results db).2 =
        rowsFor k db := by
  induction pend with
  | nil =>
      intro results db k hd
      exact ⟨hd, rfl⟩
  | cons v rest ih =>
      intro results db k hd
      by_cases hskip : dget v.student_key results = some DUPLICATED
      · simp only [applyLoop, if_pos hskip]
        exact ih results db k hd
      · have hvk : v.student_key ≠ k := fun h => hskip (h ▸ hd)
        rcases happ : applyOp lookup op v pu (dget v.student_key snap) db
          with ⟨res, db'⟩
        simp only [applyLoop, if_neg hskip, happ]
        have hd' : dget k (dinsert v.student_key res results) =
            some DUPLICATED := by
          rw [dget_dinsert_ne k v.student_key res results hvk]
          exact hd
        obtain ⟨ih1, ih2⟩ := ih (dinsert v.student_key res results) db' k hd'
        refine ⟨ih1, ih2.trans ?_⟩
        have := applyOp_rowsFor_other lookup op v pu
          (dget v.student_key snap) db k hvk
          (fun e he => hsnap v.student_key e he)
        rw [happ] at this
        exact this

/-- The keys present after the apply loop: everything already in
`results`, plus the key of every pending record. -/
theorem applyLoop_keys (lookup : String → String → LookupResult)
    (op : OpKind) (pu : String)
    (snap : List (String × ProgramEnrollment)) (pend : List ValidEntry) :
    ∀ (results : List (String × String)) (db : List ProgramEnrollment)
      (k : String),
      (dget k (applyLoop lookup op pu snap pend results db).1).isSome ↔
        (dget k results).isSome ∨ k ∈ pend.map (·.student_key) := by
  induction pend with
  | nil =>
      intro results db k
      simp [applyLoop]
  | cons v rest ih =>
      intro results db k
      by_cases hskip : dget v.student_key results = some DUPLICATED
      · simp only [applyLoop, if_pos hskip]
        rw [ih]
        by_cases hk : k = v.student_key
        · subst hk
          simp [hskip]
        · simp [List.map_cons, List.mem_cons, hk]
      · rcases happ : applyOp lookup op v pu (dget v.student_key snap) db
          with ⟨res, db'⟩
        simp only [applyLoop, if_neg hskip, happ]
        rw [ih, dget_dinsert_isSome]
        by_cases hk : k = v.student_key
        · subst hk
          simp
        · have hk' : v.student_key ≠ k := fun h => hk h.symm
          simp [List.map_cons, List.mem_cons, hk, hk']

/-- The apply loop keeps the result keys free of duplicates. -/
theorem applyLoop_nodup (lookup : String → String → LookupResult)
    (op : OpKind) (pu : String)
    (snap : List (String × ProgramEnrollment)) (pend : List ValidEntry) :
    ∀ (results : List (String × String)) (db : List ProgramEnrollment),
      (results.map Prod.fst).Nodup →
      ((applyLoop lookup op pu snap pend results db).1.map Prod.fst).Nodup
    := by
  induction pend with
  | nil =>
      intro results db h
      exact h
  | cons v rest ih =>
      intro results db h
      by_cases hskip : dget v.student_key results = some DUPLICATED
      · simp only [applyLoop, if_pos hskip]
        exact ih results db h
      · rcases happ : applyOp lookup op v pu (dget v.student_key snap) db
          with ⟨res, db'⟩
        simp only [applyLoop, if_neg hskip, happ]
        exact ih _ db' (dinsert_keys_nodup v.student_key res results h)

/-- The keys present after the validation loop: everything already
recorded, the pending keys, and one key per entry of the batch. -/
theorem collect_keys (allowed : List String) (entries : List Entry) :
    ∀ (seen : List String) (results : List (String × String))
      (pending : List ValidEntry) (res : List (String × String))
      (pend : List ValidEntry),
      collectPhase allowed entries seen results pending = .ok (res, pend) →
      ∀ k, ((dget k res).isSome ∨ k ∈ pend.map (·.student_key)) ↔
        ((dget k results).isSome ∨ k ∈ pending.map (·.student_key) ∨
          ∃ e ∈ entries, getStudentKey e = .ok k) := by
  induction entries with
  | nil =>
      intro seen results pending res pend h k
      obtain ⟨h1, h2⟩ : results = res ∧ pending = pend := by
        simpa [collectPhase] using h
      subst h1; subst h2
      simp
  | cons e rest ih =>
      intro seen results pending res pend h k
      cases hv : validate_enrollment_request allowed e seen with
      | error exc => simp [collectPhase, hv] at h
      | ok p =>
          obtain ⟨r, seen'⟩ := p
          obtain ⟨hkey, hsub, hkmem⟩ :=
            validate_ok_spec allowed e seen seen' r hv
          have hhead : (getStudentKey e = .ok k) ↔ r.key = k := by
            rw [hkey]
            simp [eq_comm]
          cases r with
          | errorStatus s k0 =>
              simp only [collectPhase, hv] at h
              rw [ih seen' (dinsert k0 s results) pending res pend h k,
                dget_dinsert_isSome]
              simp only [ValidateResult.key] at hhead
              have hsymm : (k = k0) ↔ (k0 = k) := eq_comm
              simp only [List.mem_cons, exists_eq_or_imp, hhead]
              tauto
          | valid v =>
              simp only [collectPhase, hv] at h
              rw [ih seen' results (pending ++ [v]) res pend h k]
              simp only [ValidateResult.key] at hhead
              have hsymm : (k = v.student_key) ↔ (v.student_key = k) :=
                eq_comm
              simp only [List.map_append, List.mem_append, List.map_cons,
                List.map_nil, List.mem_cons, List.mem_singleton,
                List.not_mem_nil, or_false, exists_eq_or_imp, hhead]
              tauto

/-- The validation loop keeps the result keys free of duplicates. -/
theorem collect_nodup (allowed : List String) (entries : List Entry) :
    ∀ (seen : List String) (results : List (String × String))
      (pending : List ValidEntry) (res : List (String × String))
      (pend : List ValidEntry),
      collectPhase allowed entries seen results pending = .ok (res, pend) →
      (results.map Prod.fst).Nodup → (res.map Prod.fst).Nodup := by
  induction entries with
  | nil =>
      intro seen results pending res pend h hn
      obtain ⟨h1, h2⟩ : results = res ∧ pending = pend := by
        simpa [collectPhase] using h
      subst h1
      exact hn
  | cons e rest ih =>
      intro seen results pending res pend h hn
      cases hv : validate_enrollment_request allowed e seen with
      | error exc => simp [collectPhase, hv] at h
      | ok p =>
          obtain ⟨r, seen'⟩ := p
          cases r with
          | errorStatus s k0 =>
              simp only [collectPhase, hv] at h
              exact ih seen' (dinsert k0 s results) pending res pend h
                (dinsert_keys_nodup k0 s results hn)
          | valid v =>
              simp only [collectPhase, hv] at h
              exact ih seen' results (pending ++ [v]) res pend h hn

/-! ## Lemmas: the parent-enrollment invariant of the course view -/

theorem courseInvariant_map (pdb : List ProgramEnrollment)
    (cdb : List ProgramCourseEnrollment)
    (f : ProgramCourseEnrollment → ProgramCourseEnrollment)
    (hf : ∀ r, (f r).program_uuid = r.program_uuid ∧
      (f r).external_user_key = r.external_user_key)
    (h : courseInvariant pdb cdb) : courseInvariant pdb (cdb.map f) := by
  intro c hc
  obtain ⟨r, hr, rfl⟩ := List.mem_map.mp hc
  obtain ⟨e, he, h1, h2⟩ := h r hr
  exact ⟨e, he, h1.trans (hf r).1.symm, h2.trans (hf r).2.symm⟩

theorem change_status_invariant (pdb : List ProgramEnrollment)
    (pce : ProgramCourseEnrollment) (st : String)
    (cdb : List ProgramCourseEnrollment) (h : courseInvariant pdb cdb) :
    courseInvariant pdb (change_status pce st cdb).2 := by
  simp only [change_status]
  refine courseInvariant_map pdb cdb _ (fun r => ?_) h
  by_cases hc : r.program_uuid = pce.program_uuid ∧
      r.external_user_key = pce.external_user_key ∧
      r.course_key = pce.course_key
  · simp [hc]
  · simp [hc]

theorem create_pce_invariant (pdb : List ProgramEnrollment)
    (pe : ProgramEnrollment) (ck st : String)
    (cdb : List ProgramCourseEnrollment) (hpe : pe ∈ pdb)
    (h : courseInvariant pdb cdb) :
    courseInvariant pdb (create_program_course_enrollment pe ck st cdb).2
    := by
  intro c hc
  simp only [create_program_course_enrollment] at hc
  rcases List.mem_append.mp hc with hc1 | hc2
  · exact h c hc1
  · obtain rfl := List.mem_singleton.mp hc2
    exact ⟨pe, hpe, rfl, rfl⟩

theorem applyCourseOp_invariant (op : CourseOpKind) (v : ValidEntry)
    (pe : ProgramEnrollment) (ck : String)
    (pce : Option ProgramCourseEnrollment) (pdb : List ProgramEnrollment)
    (cdb : List ProgramCourseEnrollment) (hpe : pe ∈ pdb)
    (h : courseInvariant pdb cdb) :
    courseInvariant pdb (applyCourseOp op v pe ck pce cdb).2 := by
  match op, pce with
  | .enroll, some _ => exact h
  | .enroll, none => exact create_pce_invariant pdb pe ck v.status cdb hpe h
  | .modifyStatus, none => exact h
  | .modifyStatus, some pce =>
      exact change_status_invariant pdb pce v.status cdb h
  | .createOrUpdate, none =>
      exact create_pce_invariant pdb pe ck v.status cdb hpe h
  | .createOrUpdate, some pce =>
      exact change_status_invariant pdb pce v.status cdb h

theorem process_course_record_invariant (op : CourseOpKind) (ck : String)
    (snap : List (String × ProgramEnrollment)) (v : ValidEntry)
    (pdb : List ProgramEnrollment) (cdb : List ProgramCourseEnrollment)
    (hsnap : ∀ k e, dget k snap = some e → e ∈ pdb)
    (h : courseInvariant pdb cdb) :
    courseInvariant pdb (process_course_record op ck snap v cdb).2 := by
  cases hpe : dget v.student_key snap with
  | none => simpa [process_course_record, hpe] using h
  | some pe =>
      simp only [process_course_record, hpe]
      exact applyCourseOp_invariant op v pe ck _ pdb cdb
        (hsnap v.student_key pe hpe) h

theorem courseApplyLoop_invariant (op : CourseOpKind) (ck : String)
    (snap : List (String × ProgramEnrollment))
    (pdb : List ProgramEnrollment) (pend : List ValidEntry)
    (hsnap : ∀ k e, dget k snap = some e → e ∈ pdb) :
    ∀ (results : List (String × String))
      (cdb : List ProgramCourseEnrollment), courseInvariant pdb cdb →
      courseInvariant pdb (courseApplyLoop op ck snap pend results cdb).2
    := by
  induction pend with
  | nil =>
      intro results cdb h
      exact h
  | cons v rest ih =>
      intro results cdb h
      by_cases hskip : dget v.student_key results = some DUPLICATED
      · simp only [courseApplyLoop, if_pos hskip]
        exact ih results cdb h
      · rcases happ : process_course_record op ck snap v cdb
          with ⟨res, cdb'⟩
        simp only [courseApplyLoop, if_neg hskip, happ]
        refine ih _ cdb' ?_
        have := process_course_record_invariant op ck snap v pdb cdb hsnap h
        rw [happ] at this
        exact this

/-- The whole course-enrollment endpoint preserves the parent-enrollment
invariant. -/
theorem course_endpoint_invariant (op : CourseOpKind) (pu ck : String)
    (body : RequestBody) (pdb : List ProgramEnrollment)
    (cdb : List ProgramCourseEnrollment) (h : courseInvariant pdb cdb) :
    courseInvariant pdb
      (ProgramCourseEnrollmentsView_create_or_modify_enrollments op pu ck
        body pdb cdb).2 := by
  match body with
  | .notList => exact h
  | .list entries =>
      by_cases hlen : entries.length > MAX_ENROLLMENT_RECORDS
      · simpa [ProgramCourseEnrollmentsView_create_or_modify_enrollments,
          hlen] using h
      · cases hcol : collectPhase allowedCourseStatuses entries [] [] [] with
        | error exc =>
            simpa [ProgramCourseEnrollmentsView_create_or_modify_enrollments,
              hlen, hcol] using h
        | ok p =>
            obtain ⟨results, enrollments⟩ := p
            rcases hloop : courseApplyLoop op ck
              (course_get_existing_program_enrollments pu enrollments pdb)
              enrollments results cdb with ⟨results', cdb'⟩
            simp only [ProgramCourseEnrollmentsView_create_or_modify_enrollments,
              if_neg hlen, hcol, hloop]
            have hinv := courseApplyLoop_invariant op ck
              (course_get_existing_program_enrollments pu enrollments pdb)
              pdb enrollments
              (fun k e he =>
                (snapshot_mem pu enrollments pdb k e he).1)
              results cdb h
            rw [hloop] at hinv
            exact hinv

/-- A generic unzip-free description of `zip`-with-`map` used by the grade
loader. -/
theorem zip_map_self {α β γ : Type} (l : List α) (f : α → γ)
    (g : α × γ → β) :
    (l.zip (l.map f)).map g = l.map fun a => g (a, f a) := by
  induction l with
  | nil => rfl
  | cons hd tl ih => simp [ih]

/-- A batch containing a malformed entry always aborts the validation
loop with an exception, whatever came before it. -/
theorem collect_fails (allowed : List String) (entries : List Entry) :
    ∀ (seen : List String) (results : List (String × String))
      (pending : List ValidEntry),
      (∃ e ∈ entries, malformedEntry e) →
      ∃ exc, collectPhase allowed entries seen results pending = .error exc
    := by
  induction entries with
  | nil =>
      intro seen results pending h
      obtain ⟨e, he, _⟩ := h
      exact absurd he (List.not_mem_nil e)
  | cons e rest ih =>
      intro seen results pending h
      obtain ⟨e', he', hmal⟩ := h
      rcases List.mem_cons.mp he' with rfl | htl
      · rcases hmal with rfl | ⟨s, c, rfl⟩
        · exact ⟨.typeError, by simp [collectPhase, validate_notDict]⟩
        · exact ⟨.keyError, by simp [collectPhase, validate_noKey]⟩
      · cases hv : validate_enrollment_request allowed e seen with
        | error exc => exact ⟨exc, by simp [collectPhase, hv]⟩
        | ok p =>
            obtain ⟨r, seen'⟩ := p
            cases r with
            | errorStatus s k0 =>
                obtain ⟨exc, hexc⟩ :=
                  ih seen' (dinsert k0 s results) pending ⟨e', htl, hmal⟩
                exact ⟨exc, by simp [collectPhase, hv, hexc]⟩
            | valid v =>
                obtain ⟨exc, hexc⟩ :=
                  ih seen' results (pending ++ [v]) ⟨e', htl, hmal⟩
                exact ⟨exc, by simp [collectPhase, hv, hexc]⟩

/-- Deconstruction of a program-enrollment batch request that answered
with a result map: the batch passed the size gate, the validation loop
succeeded, and response map and final table come from the apply loop. -/
theorem program_endpoint_resultsMap
    (lookup : String → String → LookupResult) (op : OpKind) (ss : Nat)
    (pu : String) (entries : List Entry) (db : List ProgramEnrollment)
    (resp : Response) (db' : List ProgramEnrollment)
    (m : List (String × String))
    (h : ProgramEnrollmentsView_create_or_modify_enrollments lookup op ss
      pu (.list entries) db = (resp, db'))
    (hm : resp.data = .resultsMap m) :
    ∃ res pend,
      collectPhase allowedProgramStatuses entries [] [] [] =
        .ok (res, pend) ∧
      m = (applyLoop lookup op pu
        (get_existing_program_enrollments pu pend db) pend res db).1 ∧
      db' = (applyLoop lookup op pu
        (get_existing_program_enrollments pu pend db) pend res db).2 := by
  by_cases hlen : entries.length > MAX_ENROLLMENT_RECORDS
  · simp only [ProgramEnrollmentsView_create_or_modify_enrollments,
      if_pos hlen] at h
    rw [Prod.mk.injEq] at h
    rw [← h.1] at hm
    simp at hm
  · cases hcol : collectPhase allowedProgramStatuses entries [] [] [] with
    | error exc =>
        simp only [ProgramEnrollmentsView_create_or_modify_enrollments,
          if_neg hlen, hcol] at h
        rw [Prod.mk.injEq] at h
        rw [← h.1] at hm
        simp at hm
    | ok p =>
        obtain ⟨res, pend⟩ := p
        rcases hloop : applyLoop lookup op pu
          (get_existing_program_enrollments pu pend db) pend res db
          with ⟨resF, dbF⟩
        simp only [ProgramEnrollmentsView_create_or_modify_enrollments,
          if_neg hlen, hcol, hloop, _get_created_or_updated_response] at h
        rw [Prod.mk.injEq] at h
        obtain ⟨h1, h2⟩ := h
        rw [← h1] at hm
        have hm' : resF = m := by simpa using hm
        refine ⟨res, pend, rfl, ?_, ?_⟩
        · rw [hloop]
          exact hm'.symm
        · rw [hloop]
          exact h2.symm

/-! ## Claim theorems -/

/-- C1, counterexample: in the two-record batch `[a ↦ enrolled,
a ↦ pending]` the claim predicts that the first record is applied (a row
is created and `a`'s response value is its status `enrolled`); the code
skips the first occurrence too (`views.py` lines 378-379), creates no
row, and answers `duplicated`. -/
theorem duplicate_first_occurrence_not_processed_cex :
    ProgramEnrollmentsView_post lookupNone "p"
      (.list [.dict (some "a") (some "enrolled") none,
              .dict (some "a") (some "pending") none]) [] =
      ({ data := .resultsMap [("a", DUPLICATED)], status := 422 }, []) ∧
    DUPLICATED ≠ "enrolled" := by
  exact ⟨rfl, by decide⟩

/-- C1, amended: in a batch whose `student_key` occurs more than once, no
occurrence is processed: the result map holds exactly one entry for that
key, with value `duplicated`, and the stored rows of that key are
untouched. -/
theorem duplicate_key_all_occurrences_rejected
    (lookup : String → String → LookupResult) (op : OpKind) (ss : Nat)
    (pu : String) (entries : List Entry) (db : List ProgramEnrollment)
    (resp : Response) (db' : List ProgramEnrollment)
    (m : List (String × String)) (k : String)
    (h : ProgramEnrollmentsView_create_or_modify_enrollments lookup op ss
      pu (.list entries) db = (resp, db'))
    (hm : resp.data = .resultsMap m) (hc : 2 ≤ countKey k entries) :
    dget k m = some DUPLICATED ∧ (m.map Prod.fst).Nodup ∧
    rowsFor k db' = rowsFor k db := by
  obtain ⟨res, pend, hcol, hm', hdb'⟩ :=
    program_endpoint_resultsMap lookup op ss pu entries db resp db' m h hm
  have hdup := collect_dup_main allowedProgramStatuses entries res pend k
    hcol hc
  have hsnapwf : ∀ k' e,
      dget k' (get_existing_program_enrollments pu pend db) = some e →
      e.external_user_key = k' :=
    fun k' e he => (snapshot_mem pu pend db k' e he).2.2
  obtain ⟨hf1, hf2⟩ := applyLoop_dup_frozen lookup op pu
    (get_existing_program_enrollments pu pend db) hsnapwf pend res db k
    hdup
  have hn := applyLoop_nodup lookup op pu
    (get_existing_program_enrollments pu pend db) pend res db
    (collect_nodup allowedProgramStatuses entries [] [] [] res pend hcol
      (by simp))
  refine ⟨?_, ?_, ?_⟩
  · rw [hm']
    exact hf1
  · rw [hm']
    exact hn
  · rw [hdb']
    exact hf2

/-- Witness for the amended C1 at the counterexample's input. -/
theorem duplicate_key_all_occurrences_rejected_witness :
    dget "a" [("a", DUPLICATED)] = some DUPLICATED ∧
    (([("a", DUPLICATED)] : List (String × String)).map Prod.fst).Nodup ∧
    rowsFor "a" ([] : List ProgramEnrollment) =
      rowsFor "a" ([] : List ProgramEnrollment) :=
  duplicate_key_all_occurrences_rejected lookupNone .create 201 "p"
    [.dict (some "a") (some "enrolled") none,
     .dict (some "a") (some "pending") none] []
    { data := .resultsMap [("a", DUPLICATED)], status := 422 } []
    [("a", DUPLICATED)] "a" rfl rfl (by decide)

/-- C3: the HTTP status of a grade-listing response is a function of the
page of grade results only: 204 when empty, 422 when every result is an
error, 207 when errors and successes are mixed, 200 when every result is
a success (`ProgramCourseGradesView._calc_response_code`). -/
theorem grades_aggregate_status {E G : Type}
    (grade_results : List (ProgramCourseGrade E G)) :
    (grade_results = [] → _calc_response_code grade_results = 204) ∧
    (grade_results ≠ [] →
      (∀ r ∈ grade_results, r.is_error = true) →
      _calc_response_code grade_results = 422) ∧
    ((∃ r ∈ grade_results, r.is_error = true) →
      (∃ r ∈ grade_results, r.is_error = false) →
      _calc_response_code grade_results = 207) ∧
    (grade_results ≠ [] →
      (∀ r ∈ grade_results, r.is_error = false) →
      _calc_response_code grade_results = 200) := by
  refine ⟨?_, ?_, ?_, ?_⟩
  · intro h
    subst h
    rfl
  · intro hne hall
    have h1 : grade_results.isEmpty = false := by
      cases grade_results with
      | nil => exact absurd rfl hne
      | cons hd tl => rfl
    have h2 : grade_results.all (·.is_error) = true :=
      List.all_eq_true.mpr hall
    simp [_calc_response_code, h1, h2]
  · rintro ⟨r1, hr1, he1⟩ ⟨r2, hr2, he2⟩
    have h1 : grade_results.isEmpty = false := by
      cases grade_results with
      | nil => exact absurd hr1 (List.not_mem_nil r1)
      | cons hd tl => rfl
    have h2 : ¬ grade_results.all (·.is_error) = true := by
      rw [List.all_eq_true]
      intro hall
      rw [hall r2 hr2] at he2
      exact absurd he2 (by decide)
    have h3 : grade_results.any (·.is_error) = true :=
      List.any_eq_true.mpr ⟨r1, hr1, he1⟩
    simp [_calc_response_code, h1, h2, h3]
  · intro hne hall
    have h1 : grade_results.isEmpty = false := by
      cases grade_results with
      | nil => exact absurd rfl hne
      | cons hd tl => rfl
    have h2 : ¬ grade_results.all (·.is_error) = true := by
      rw [List.all_eq_true]
      intro hall'
      cases grade_results with
      | nil => exact hne rfl
      | cons hd tl =>
          have := hall' hd (List.mem_cons_self hd tl)
          rw [hall hd (List.mem_cons_self hd tl)] at this
          exact Bool.false_ne_true this
    have h3 : ¬ grade_results.any (·.is_error) = true := by
      rw [List.any_eq_true]
      rintro ⟨r, hr, he⟩
      rw [hall r hr] at he
      exact Bool.false_ne_true he
    simp [_calc_response_code, h1, h2, h3]

/-- Witness for C3 at concrete result pages. -/
theorem grades_aggregate_status_witness :
    _calc_response_code ([] : List (ProgramCourseGrade Unit Unit)) = 204 ∧
    _calc_response_code
      ([ProgramCourseGrade.error () (some "boom")] :
        List (ProgramCourseGrade Unit Unit)) = 422 ∧
    _calc_response_code
      ([ProgramCourseGrade.error () (some "boom"),
        ProgramCourseGrade.ok () ()] :
        List (ProgramCourseGrade Unit Unit)) = 207 ∧
    _calc_response_code
      ([ProgramCourseGrade.ok () ()] :
        List (ProgramCourseGrade Unit Unit)) = 200 :=
  ⟨(grades_aggregate_status []).1 rfl,
   (grades_aggregate_status _).2.1 (by decide) (by decide),
   (grades_aggregate_status _).2.2.1
     ⟨ProgramCourseGrade.error () (some "boom"), by decide, rfl⟩
     ⟨ProgramCourseGrade.ok () (), by decide, rfl⟩,
   (grades_aggregate_status _).2.2.2 (by decide) (by decide)⟩

/-- C4: a create-only record whose student key already has an enrollment
in the target program yields `conflict` and leaves the table unchanged; an
update-only record whose student key has no enrollment yields
`not-in-program` and creates no row.  The last two conjuncts tie the
looked-up `program_enrollment` argument to actual rows of the target
program. -/
theorem create_conflict_modify_not_in_program
    (lookup : String → String → LookupResult) (v : ValidEntry)
    (pu k : String) (e : ProgramEnrollment) (db : List ProgramEnrollment)
    (pending : List ValidEntry) :
    create_program_enrollment lookup v pu (some e) db = (CONFLICT, db) ∧
    modify_program_enrollment v none db = (NOT_IN_PROGRAM, db) ∧
    (dget k (get_existing_program_enrollments pu pending db) = some e →
      e ∈ db ∧ e.program_uuid = pu ∧ e.external_user_key = k) ∧
    (k ∈ pending.map (·.student_key) →
      (∃ e' ∈ db, e'.program_uuid = pu ∧ e'.external_user_key = k) →
      (dget k (get_existing_program_enrollments pu pending db)).isSome) :=
  ⟨rfl, rfl, fun h => snapshot_mem pu pending db k e h,
   fun h1 h2 => snapshot_isSome pu pending db k h1 h2⟩

/-- Witness for C4 at a one-row table. -/
theorem create_conflict_modify_not_in_program_witness :
    create_program_enrollment lookupNone ⟨"a", "enrolled", none⟩ "p"
      (some ⟨"p", "a", none, none, "pending"⟩)
      [⟨"p", "a", none, none, "pending"⟩] =
      (CONFLICT, [⟨"p", "a", none, none, "pending"⟩]) ∧
    modify_program_enrollment ⟨"a", "enrolled", none⟩ none
      [⟨"p", "a", none, none, "pending"⟩] =
      (NOT_IN_PROGRAM, [⟨"p", "a", none, none, "pending"⟩]) ∧
    ((⟨"p", "a", none, none, "pending"⟩ : ProgramEnrollment) ∈
        [(⟨"p", "a", none, none, "pending"⟩ : ProgramEnrollment)] ∧
      ("p" : String) = "p" ∧ ("a" : String) = "a") ∧
    (dget "a" (get_existing_program_enrollments "p"
      [⟨"a", "enrolled", none⟩]
      [⟨"p", "a", none, none, "pending"⟩])).isSome := by
  have h := create_conflict_modify_not_in_program lookupNone
    ⟨"a", "enrolled", none⟩ "p" "a" ⟨"p", "a", none, none, "pending"⟩
    [⟨"p", "a", none, none, "pending"⟩] [⟨"a", "enrolled", none⟩]
  exact ⟨h.1, h.2.1, h.2.2.1 (by decide),
    h.2.2.2 (by decide) ⟨⟨"p", "a", none, none, "pending"⟩, by decide⟩⟩

/-- C5: a batch of more than 25 records is rejected with 413 by both the
program-enrollment and the course-enrollment view, whatever the records
contain, and the stored rows are untouched. -/
theorem oversize_batch_rejected_413
    (lookup : String → String → LookupResult) (op : OpKind) (ss : Nat)
    (pu : String) (entries : List Entry) (db : List ProgramEnrollment)
    (cop : CourseOpKind) (ck : String) (pdb : List ProgramEnrollment)
    (cdb : List ProgramCourseEnrollment)
    (h : entries.length > MAX_ENROLLMENT_RECORDS) :
    ProgramEnrollmentsView_create_or_modify_enrollments lookup op ss pu
      (.list entries) db =
      ({ data := .message "enrollment limit 25", status := 413 }, db) ∧
    ProgramCourseEnrollmentsView_create_or_modify_enrollments cop pu ck
      (.list entries) pdb cdb =
      ({ data := .message "enrollment limit 25", status := 413 }, cdb) := by
  constructor
  · simp [ProgramEnrollmentsView_create_or_modify_enrollments, h]
  · simp [ProgramCourseEnrollmentsView_create_or_modify_enrollments, h]

/-- Witness for C5: 26 records, all of them garbage. -/
theorem oversize_batch_rejected_413_witness :
    ProgramEnrollmentsView_create_or_modify_enrollments lookupNone .create
      201 "p" (.list (List.replicate 26 .notDict)) [] =
      ({ data := .message "enrollment limit 25", status := 413 }, []) ∧
    ProgramCourseEnrollmentsView_create_or_modify_enrollments .enroll "p"
      "course-v1:edX+DemoX+Demo" (.list (List.replicate 26 .notDict)) [] []
      =
      ({ data := .message "enrollment limit 25", status := 413 }, []) :=
  oversize_batch_rejected_413 lookupNone .create 201 "p"
    (List.replicate 26 .notDict) [] .enroll "course-v1:edX+DemoX+Demo" []
    [] (by decide)

/-- C6: the grade loader yields exactly one result per enrolled learner of
the page, in enrollment order; a learner whose grade fails to load gets an
error record carrying the exception, without affecting the other
learners' records (`_load_grade_results` / `_iter_grades`). -/
theorem grade_results_one_per_learner {E U G : Type} (userOf : E → U)
    (gradeOf : U → Option G × Option String)
    (paginated_enrollments : List E) :
    _load_grade_results userOf gradeOf paginated_enrollments =
      paginated_enrollments.map (fun e =>
        match (gradeOf (userOf e)).1 with
        | some g => .ok e g
        | none => .error e (gradeOf (userOf e)).2) ∧
    (_load_grade_results userOf gradeOf paginated_enrollments).length =
      paginated_enrollments.length := by
  have hmain : _load_grade_results userOf gradeOf paginated_enrollments =
      paginated_enrollments.map (fun e =>
        match (gradeOf (userOf e)).1 with
        | some g => .ok e g
        | none => .error e (gradeOf (userOf e)).2) := by
    cases paginated_enrollments with
    | nil => rfl
    | cons hd tl =>
        simp only [_load_grade_results, List.isEmpty_cons, Bool.false_eq_true,
          if_false, _iter_grades, List.map_map]
        exact zip_map_self (hd :: tl) (fun e => gradeOf (userOf e)) _
  exact ⟨hmain, by rw [hmain, List.length_map]⟩

/-- C9: an empty batch body takes the zero-success branch: 422 with an
empty result map, in both enrollment views. -/
theorem empty_batch_is_zero_success_422
    (lookup : String → String → LookupResult) (op : OpKind) (ss : Nat)
    (pu : String) (db : List ProgramEnrollment) (cop : CourseOpKind)
    (ck : String) (pdb : List ProgramEnrollment)
    (cdb : List ProgramCourseEnrollment) :
    ProgramEnrollmentsView_create_or_modify_enrollments lookup op ss pu
      (.list []) db = ({ data := .resultsMap [], status := 422 }, db) ∧
    ProgramCourseEnrollmentsView_create_or_modify_enrollments cop pu ck
      (.list []) pdb cdb =
      ({ data := .resultsMap [], status := 422 }, cdb) := by
  constructor
  · rfl
  · rfl

/-- C10: when the identity-provider lookup raises
`ProviderDoesNotExistException`, `create_program_enrollment` still creates
the row, with `user = None`, and returns the requested status; the
response value is the same as with any successful lookup, and it counts
as a per-record success. -/
theorem provider_missing_creates_waiting_enrollment
    (lookup : String → String → LookupResult) (v : ValidEntry)
    (pu : String) (db : List ProgramEnrollment) (u : String) :
    create_program_enrollment lookupProviderMissing v pu none db =
      (v.status,
       db ++ [{ program_uuid := pu, external_user_key := v.student_key,
                user := none, curriculum_uuid := v.curriculum_uuid,
                status := v.status }]) ∧
    (create_program_enrollment lookup v pu none db).1 = v.status ∧
    (create_program_enrollment lookupProviderMissing v pu none db).1 =
      (create_program_enrollment (fun _ _ => .found (some u)) v pu none
        db).1 ∧
    (v.status ∈ allowedProgramStatuses →
      (create_program_enrollment lookupProviderMissing v pu none db).1 ∈
        programOK) := by
  refine ⟨rfl, ?_, rfl, fun h => h⟩
  cases hl : lookup v.student_key pu with
  | providerDoesNotExist => simp [create_program_enrollment, hl]
  | found uu => simp [create_program_enrollment, hl]

/-- Witness for C10. -/
theorem provider_missing_creates_waiting_enrollment_witness :
    create_program_enrollment lookupProviderMissing
      ⟨"a", "enrolled", none⟩ "p" none [] =
      ("enrolled", [{ program_uuid := "p", external_user_key := "a",
                      user := none, curriculum_uuid := none,
                      status := "enrolled" }]) ∧
    (create_program_enrollment lookupNone ⟨"a", "enrolled", none⟩ "p" none
      []).1 = "enrolled" ∧
    (create_program_enrollment lookupProviderMissing
      ⟨"a", "enrolled", none⟩ "p" none []).1 =
      (create_program_enrollment (fun _ _ => .found (some "u1"))
        ⟨"a", "enrolled", none⟩ "p" none []).1 ∧
    "enrolled" ∈ programOK := by
  have h := provider_missing_creates_waiting_enrollment lookupNone
    ⟨"a", "enrolled", none⟩ "p" [] "u1"
  exact ⟨h.1, h.2.1, h.2.2.1, h.2.2.2 (by decide)⟩

/-- C7: a non-list body, and (within the 25-record limit) any batch with
an entry that is not a dict or lacks `student_key`, reject the whole
request — 422 in the program view, 400 in the course view — with a plain
error message instead of a result map, leaving the stored rows
untouched. -/
theorem malformed_batch_rejected_wholesale
    (lookup : String → String → LookupResult) (op : OpKind) (ss : Nat)
    (pu : String) (entries : List Entry) (db : List ProgramEnrollment)
    (cop : CourseOpKind) (ck : String) (pdb : List ProgramEnrollment)
    (cdb : List ProgramCourseEnrollment) :
    (ProgramEnrollmentsView_create_or_modify_enrollments lookup op ss pu
      .notList db =
      ({ data := .message "invalid enrollment record", status := 422 },
       db)) ∧
    (ProgramCourseEnrollmentsView_create_or_modify_enrollments cop pu ck
      .notList pdb cdb =
      ({ data := .message "invalid enrollment record", status := 400 },
       cdb)) ∧
    ((∃ e ∈ entries, malformedEntry e) →
      entries.length ≤ MAX_ENROLLMENT_RECORDS →
      ProgramEnrollmentsView_create_or_modify_enrollments lookup op ss pu
        (.list entries) db =
        ({ data := .message "invalid enrollment record", status := 422 },
         db) ∧
      ProgramCourseEnrollmentsView_create_or_modify_enrollments cop pu ck
        (.list entries) pdb cdb =
        ({ data := .message "invalid enrollment record", status := 400 },
         cdb)) := by
  refine ⟨rfl, rfl, fun hmal hlen => ?_⟩
  have hlen' : ¬ entries.length > MAX_ENROLLMENT_RECORDS := by omega
  obtain ⟨exc1, hexc1⟩ :=
    collect_fails allowedProgramStatuses entries [] [] [] hmal
  obtain ⟨exc2, hexc2⟩ :=
    collect_fails allowedCourseStatuses entries [] [] [] hmal
  constructor
  · simp [ProgramEnrollmentsView_create_or_modify_enrollments, hlen',
      hexc1]
  · simp [ProgramCourseEnrollmentsView_create_or_modify_enrollments,
      hlen', hexc2]

/-- Witness for C7: a one-entry batch whose entry is not a dict. -/
theorem malformed_batch_rejected_wholesale_witness :
    ProgramEnrollmentsView_create_or_modify_enrollments lookupNone .create
      201 "p" (.list [.notDict]) [] =
      ({ data := .message "invalid enrollment record", status := 422 },
       []) ∧
    ProgramCourseEnrollmentsView_create_or_modify_enrollments .enroll "p"
      "course-v1:edX+DemoX+Demo" (.list [.notDict]) [] [] =
      ({ data := .message "invalid enrollment record", status := 400 },
       []) :=
  (malformed_batch_rejected_wholesale lookupNone .create 201 "p"
    [.notDict] [] .enroll "course-v1:edX+DemoX+Demo" [] []).2.2
    ⟨.notDict, List.mem_singleton.mpr rfl, Or.inl rfl⟩ (by decide)

/-- C8: a course-level record whose student key has no program enrollment
in the target program gets `not-in-program` and creates nothing
(`views.py` lines 628-634), and the whole course-enrollment endpoint
preserves the invariant that every `ProgramCourseEnrollment` has a parent
`ProgramEnrollment`. -/
theorem course_enrollment_requires_parent (op : CourseOpKind)
    (ck : String) (snap : List (String × ProgramEnrollment))
    (v : ValidEntry) (cdb : List ProgramCourseEnrollment)
    (cop : CourseOpKind) (pu ck2 : String) (body : RequestBody)
    (pdb : List ProgramEnrollment)
    (cdb2 : List ProgramCourseEnrollment) :
    (dget v.student_key snap = none →
      process_course_record op ck snap v cdb = (NOT_IN_PROGRAM, cdb)) ∧
    (courseInvariant pdb cdb2 →
      courseInvariant pdb
        (ProgramCourseEnrollmentsView_create_or_modify_enrollments cop pu
          ck2 body pdb cdb2).2) := by
  constructor
  · intro h
    simp [process_course_record, h]
  · intro h
    exact course_endpoint_invariant cop pu ck2 body pdb cdb2 h

/-- Witness for C8: a learner unknown to the program, and the invariant
on a concrete run of the endpoint. -/
theorem course_enrollment_requires_parent_witness :
    process_course_record .enroll "course-v1:edX+DemoX+Demo" []
      ⟨"a", "active", none⟩ [] = (NOT_IN_PROGRAM, []) ∧
    courseInvariant []
      (ProgramCourseEnrollmentsView_create_or_modify_enrollments .enroll
        "p" "course-v1:edX+DemoX+Demo"
        (.list [.dict (some "a") (some "active") none]) [] []).2 := by
  have h := course_enrollment_requires_parent .enroll
    "course-v1:edX+DemoX+Demo" [] ⟨"a", "active", none⟩ [] .enroll "p"
    "course-v1:edX+DemoX+Demo" (.list [.dict (some "a") (some "active") none])
    [] []
  refine ⟨h.1 rfl, h.2 ?_⟩
  intro c hc
  exact absurd hc (List.not_mem_nil c)

/-- C2: the HTTP status of a validated batch response is a function of
the per-record result map alone — the operation's success code when every
result is a success and the map is non-empty, 422 when no result is a
success, 207 when mixed — in both the program view
(`_get_created_or_updated_response`, success code 201 for `post`, 200 for
`patch` and `put`) and the course view (success code 200); and the result
map holds exactly the distinct student keys of the request, without
duplicates. -/
theorem aggregate_status_from_results
    (lookup : String → String → LookupResult) (op : OpKind) (ss : Nat)
    (pu : String) (entries : List Entry) (db : List ProgramEnrollment)
    (resp : Response) (db' : List ProgramEnrollment)
    (m rd : List (String × String)) (ds : Nat) :
    ((_get_created_or_updated_response rd ds).data = .resultsMap rd) ∧
    (rd ≠ [] → (∀ kv ∈ rd, kv.2 ∈ programOK) →
      (_get_created_or_updated_response rd ds).status = ds) ∧
    ((∀ kv ∈ rd, kv.2 ∉ programOK) →
      (_get_created_or_updated_response rd ds).status = 422) ∧
    ((∃ kv ∈ rd, kv.2 ∈ programOK) → (∃ kv ∈ rd, kv.2 ∉ programOK) →
      (_get_created_or_updated_response rd ds).status = 207) ∧
    ((courseAggregateResponse rd).data = .resultsMap rd) ∧
    (rd ≠ [] → (∀ kv ∈ rd, kv.2 ∈ courseOK) →
      (courseAggregateResponse rd).status = 200) ∧
    ((∀ kv ∈ rd, kv.2 ∉ courseOK) →
      (courseAggregateResponse rd).status = 422) ∧
    ((∃ kv ∈ rd, kv.2 ∈ courseOK) → (∃ kv ∈ rd, kv.2 ∉ courseOK) →
      (courseAggregateResponse rd).status = 207) ∧
    (ProgramEnrollmentsView_post lookup pu (.list entries) db =
      ProgramEnrollmentsView_create_or_modify_enrollments lookup .create
        201 pu (.list entries) db) ∧
    (ProgramEnrollmentsView_patch lookup pu (.list entries) db =
      ProgramEnrollmentsView_create_or_modify_enrollments lookup .modify
        200 pu (.list entries) db) ∧
    (ProgramEnrollmentsView_put lookup pu (.list entries) db =
      ProgramEnrollmentsView_create_or_modify_enrollments lookup
        .createOrModify 200 pu (.list entries) db) ∧
    (ProgramEnrollmentsView_create_or_modify_enrollments lookup op ss pu
        (.list entries) db = (resp, db') →
      resp.data = .resultsMap m →
      (∀ k, (dget k m).isSome ↔
        ∃ e ∈ entries, getStudentKey e = .ok k) ∧
      (m.map Prod.fst).Nodup) := by
  refine ⟨rfl, ?_, ?_, ?_, ?_, ?_, ?_, ?_, rfl, rfl, rfl, ?_⟩
  · intro hne hall
    have hfl : (rd.filter fun kv => kv.2 ∈ programOK).length = rd.length :=
      List.filter_length_eq_length.mpr
        (fun kv hkv => decide_eq_true (hall kv hkv))
    have hzero : ¬ (rd.filter fun kv => kv.2 ∈ programOK).length = 0 := by
      rw [hfl]
      intro h0
      exact hne (List.length_eq_zero.mp h0)
    simp only [_get_created_or_updated_response, hfl, hzero]
    simp [hne]
  · intro hall
    have hfl : (rd.filter fun kv => kv.2 ∈ programOK) = [] :=
      List.filter_eq_nil_iff.mpr
        (fun kv hkv => by simpa using hall kv hkv)
    simp [_get_created_or_updated_response, hfl]
  · rintro ⟨kv1, hkv1, hok1⟩ ⟨kv2, hkv2, hbad2⟩
    have hne0 : ¬ (rd.filter fun kv => kv.2 ∈ programOK).length = 0 := by
      intro h0
      have hmem : kv1 ∈ rd.filter fun kv => kv.2 ∈ programOK :=
        List.mem_filter.mpr ⟨hkv1, decide_eq_true hok1⟩
      rw [List.length_eq_zero.mp h0] at hmem
      exact absurd hmem (List.not_mem_nil kv1)
    have hneq : (rd.filter fun kv => kv.2 ∈ programOK).length ≠
        rd.length := by
      intro heq
      exact hbad2 (of_decide_eq_true
        (List.filter_length_eq_length.mp heq kv2 hkv2))
    simp [_get_created_or_updated_response, hne0, hneq]
  · simp only [courseAggregateResponse]
    split_ifs <;> rfl
  · intro hne hall
    have hfl : (rd.filter fun kv => kv.2 ∈ courseOK).length = rd.length :=
      List.filter_length_eq_length.mpr
        (fun kv hkv => decide_eq_true (hall kv hkv))
    have hzero : ¬ (rd.filter fun kv => kv.2 ∈ courseOK).length = 0 := by
      rw [hfl]
      intro h0
      exact hne (List.length_eq_zero.mp h0)
    simp only [courseAggregateResponse, hfl, hzero]
    simp [hne]
  · intro hall
    have hfl : (rd.filter fun kv => kv.2 ∈ courseOK) = [] :=
      List.filter_eq_nil_iff.mpr
        (fun kv hkv => by simpa using hall kv hkv)
    simp [courseAggregateResponse, hfl]
  · rintro ⟨kv1, hkv1, hok1⟩ ⟨kv2, hkv2, hbad2⟩
    have hne0 : ¬ (rd.filter fun kv => kv.2 ∈ courseOK).length = 0 := by
      intro h0
      have hmem : kv1 ∈ rd.filter fun kv => kv.2 ∈ courseOK :=
        List.mem_filter.mpr ⟨hkv1, decide_eq_true hok1⟩
      rw [List.length_eq_zero.mp h0] at hmem
      exact absurd hmem (List.not_mem_nil kv1)
    have hneq : (rd.filter fun kv => kv.2 ∈ courseOK).length ≠
        rd.length := by
      intro heq
      exact hbad2 (of_decide_eq_true
        (List.filter_length_eq_length.mp heq kv2 hkv2))
    simp [courseAggregateResponse, hne0, hneq]
  · intro h hm
    obtain ⟨res, pend, hcol, hm', hdb'⟩ :=
      program_endpoint_resultsMap lookup op ss pu entries db resp db' m h
        hm
    constructor
    · intro k
      rw [hm', applyLoop_keys lookup op pu
        (get_existing_program_enrollments pu pend db) pend res db k]
      have hck := collect_keys allowedProgramStatuses entries [] [] [] res
        pend hcol k
      simpa [dget] using hck
    · rw [hm']
      exact applyLoop_nodup lookup op pu
        (get_existing_program_enrollments pu pend db) pend res db
        (collect_nodup allowedProgramStatuses entries [] [] [] res pend
          hcol (by simp))

/-- Witness for C2: the spec's 4-record example (2 successes, 2 invalid)
gives 207 with all four keys present, and each aggregation branch at a
small concrete map. -/
theorem aggregate_status_from_results_witness :
    (_get_created_or_updated_response [("a", "enrolled")] 201).status =
      201 ∧
    (_get_created_or_updated_response [("a", DUPLICATED)] 201).status =
      422 ∧
    (_get_created_or_updated_response [("a", "enrolled"),
      ("b", DUPLICATED)] 201).status = 207 ∧
    (courseAggregateResponse [("a", "active")]).status = 200 ∧
    (courseAggregateResponse [("a", DUPLICATED)]).status = 422 ∧
    (courseAggregateResponse [("a", "active"), ("b", DUPLICATED)]).status
      = 207 ∧
    (dget "a" [("b", INVALID_STATUS), ("d", INVALID_STATUS),
      ("a", "enrolled"), ("c", "pending")]).isSome = true ∧
    (([("b", INVALID_STATUS), ("d", INVALID_STATUS), ("a", "enrolled"),
      ("c", "pending")] : List (String × String)).map Prod.fst).Nodup := by
  have ha := aggregate_status_from_results lookupNone .create 201 "p" []
    [] { data := .resultsMap [], status := 422 } [] []
    [("a", "enrolled")] 201
  have hb := aggregate_status_from_results lookupNone .create 201 "p" []
    [] { data := .resultsMap [], status := 422 } [] []
    [("a", DUPLICATED)] 201
  have hc := aggregate_status_from_results lookupNone .create 201 "p" []
    [] { data := .resultsMap [], status := 422 } [] []
    [("a", "enrolled"), ("b", DUPLICATED)] 201
  have hd := aggregate_status_from_results lookupNone .create 201 "p" []
    [] { data := .resultsMap [], status := 422 } [] []
    [("a", "active")] 201
  have hf := aggregate_status_from_results lookupNone .create 201 "p" []
    [] { data := .resultsMap [], status := 422 } [] []
    [("a", "active"), ("b", DUPLICATED)] 201
  have he := aggregate_status_from_results lookupNone .create 201 "p"
    [.dict (some "a") (some "enrolled") none,
     .dict (some "b") (some "bogus") none,
     .dict (some "c") (some "pending") none,
     .dict (some "d") (some "bogus") none]
    []
    { data := .resultsMap [("b", INVALID_STATUS), ("d", INVALID_STATUS),
        ("a", "enrolled"), ("c", "pending")], status := 207 }
    [{ program_uuid := "p", external_user_key := "a", user := none,
       curriculum_uuid := none, status := "enrolled" },
     { program_uuid := "p", external_user_key := "c", user := none,
       curriculum_uuid := none, status := "pending" }]
    [("b", INVALID_STATUS), ("d", INVALID_STATUS), ("a", "enrolled"),
     ("c", "pending")] [] 422
  obtain ⟨hkeys, hnodup⟩ := he.2.2.2.2.2.2.2.2.2.2.2 rfl rfl
  refine ⟨ha.2.1 (by decide) (by decide),
    hb.2.2.1 (by decide),
    hc.2.2.2.1 ⟨("a", "enrolled"), by decide⟩
      ⟨("b", DUPLICATED), by decide⟩,
    hd.2.2.2.2.2.1 (by decide) (by decide),
    hb.2.2.2.2.2.2.1 (by decide),
    hf.2.2.2.2.2.2.2.1 ⟨("a", "active"), by decide⟩
      ⟨("b", DUPLICATED), by decide⟩,
    (hkeys "a").mpr
      ⟨.dict (some "a") (some "enrolled") none, by decide, rfl⟩,
    hnodup⟩

end ProgramEnrollmentsSpec
